import Mathlib

/-!
Shallow embedding of NatLibFi/melinda-batch-update-cli.

Sources embedded:
* `src/operations.js` (shipped inside `src/src/operations.spec.js` after the
  test suite): `isValid`, `validateRecord`, `fix`.
* `src/cli.js`: the `fixmultiple` path (`argv.c || 5`, `_.chunk`, `fixAll`).

External collaborators (`client.loadRecord`, `validate`, `client.updateRecord`)
are modelled as an explicit environment of pure functions; records are modelled
as a concrete structure with decidable deep equality (`Record.isEqual` and
`Record.clone` of marc-record-js are deep structural comparison and deep copy,
so clone is the identity in a pure embedding).  JavaScript numbers are
abstracted to exact arithmetic (`Int`, scaled decimal values); IEEE-754
rounding at extreme magnitudes is outside the model.
-/

deriving instance DecidableEq for Except

namespace MelindaBatch

/-- In-memory MARC record: an opaque structured document; the embedding only
needs deep structural equality (`Record.isEqual`) and deep copy
(`Record.clone`, the identity here). -/
structure Record where
  fields : List (String × String)
deriving DecidableEq

/-- Validator report: a list of `{validatorName, issues}` entries
(`results.validators` in the source). -/
abbrev ValidationReport := List (String × List String)

/-- `client.updateRecord` acknowledgment: `{messages: [{message}, ...]}`,
modelled as the list of message strings. -/
abbrev UpdateResponse := List String

/-- Result object of `validateRecord` (operations.js).  In the source
`revalidationResults` is initialised to the empty string and only replaced by
a report when the record was mutated; the empty-string sentinel is modelled as
`none`. -/
structure ValidationOutcome where
  originalRecord : Record
  results : ValidationReport
  revalidationResults : Option ValidationReport
  validatedRecord : Record
deriving DecidableEq

/-- `fix` returns the `validateRecord` object with an `updateResponse`
property added; `fixAll` (cli.js) later sets `res.results['id'] = id`, which
is modelled by the `resultsId` field. -/
structure FixOutcome where
  validation : ValidationOutcome
  updateResponse : Option UpdateResponse
  resultsId : Option String
deriving DecidableEq

/-- Errors produced by operations.js: the `Invalid record id: ...` Error, the
TypeError raised by destructuring the `null` result of `validateRecord` inside
`fix`, and opaque errors propagated unchanged from the collaborators. -/
inductive OpError where
  | invalidId (id : String)
  | nullDestructure
  | ext (msg : String)
deriving DecidableEq

/-- External collaborators of operations.js (imported from `./config`): the
catalog client and the validator.  `validate` may mutate the record it is
given as a side effect, so it is modelled as returning the new record state
together with its report. -/
structure CatalogEnv where
  loadRecord : String → Except String (Option Record)
  validate : Record → Except String (Record × ValidationReport)
  updateRecord : Record → Except String UpdateResponse

/-! ### JavaScript `Number()` on strings

`isValid` in operations.js is `Number(id) > 0 && Number(id) < 100000000`.
`Number` applied to a string implements ECMA-262 StringNumericLiteral:
whitespace-trimmed; empty gives `0`; `0x`/`0o`/`0b` radix literals; otherwise
an optionally signed decimal literal with optional fraction and exponent;
anything else is NaN (all comparisons with NaN are false).  The value is
modelled exactly as a scaled decimal `mantissa * 10 ^ exp10` instead of an
IEEE-754 double; `Infinity` (which fails both `isValid` comparisons just like
NaN) is folded into the unparseable case, and whitespace/digits are ASCII. -/

/-- ASCII whitespace accepted (and trimmed) by JS `Number()`. -/
def jsWhitespace (c : Char) : Bool :=
  c = ' ' || c = '\t' || c = '\n' || c = '\r' || c = '\x0b' || c = '\x0c'

def isDecDigit (c : Char) : Bool := '0' ≤ c && c ≤ '9'

def isHexDigit (c : Char) : Bool :=
  isDecDigit c || ('a' ≤ c && c ≤ 'f') || ('A' ≤ c && c ≤ 'F')

def isOctDigit (c : Char) : Bool := '0' ≤ c && c ≤ '7'

def isBinDigit (c : Char) : Bool := c = '0' || c = '1'

def digitVal (c : Char) : Nat :=
  if '0' ≤ c && c ≤ '9' then c.toNat - '0'.toNat
  else if 'a' ≤ c && c ≤ 'f' then c.toNat - 'a'.toNat + 10
  else if 'A' ≤ c && c ≤ 'F' then c.toNat - 'A'.toNat + 10
  else 0

def natOfDigits (base : Nat) (ds : List Char) : Nat :=
  ds.foldl (fun a c => base * a + digitVal c) 0

/-- A parsed JS number value, exactly `mantissa * 10 ^ exp10`. -/
structure JsNum where
  mantissa : Int
  exp10 : Int
deriving DecidableEq

/-- The exact rational value of a parsed JS number. -/
def JsNum.toRat (x : JsNum) : ℚ := (x.mantissa : ℚ) * (10 : ℚ) ^ x.exp10

/-- ExponentPart: `(e|E)(+|-)?digits`; an empty tail means exponent `0`;
anything else fails the whole literal. -/
def parseExponent10 : List Char → Option Int
  | [] => some 0
  | c :: rest =>
      if c = 'e' || c = 'E' then
        match rest with
        | '+' :: ds =>
            if !ds.isEmpty && ds.all isDecDigit then some ((natOfDigits 10 ds : Nat) : Int)
            else none
        | '-' :: ds =>
            if !ds.isEmpty && ds.all isDecDigit then some (-((natOfDigits 10 ds : Nat) : Int))
            else none
        | ds =>
            if !ds.isEmpty && ds.all isDecDigit then some ((natOfDigits 10 ds : Nat) : Int)
            else none
      else none

/-- StrUnsignedDecimalLiteral: `digits [. digits] [exp]` or `. digits [exp]`
(or `Infinity`, folded into `none`, see the section comment). -/
def parseUnsignedDec (l : List Char) : Option JsNum :=
  if l = ['I', 'n', 'f', 'i', 'n', 'i', 't', 'y'] then none
  else
    let intDs := l.takeWhile isDecDigit
    let rest := l.dropWhile isDecDigit
    match rest with
    | '.' :: rest2 =>
        let fracDs := rest2.takeWhile isDecDigit
        let rest3 := rest2.dropWhile isDecDigit
        if intDs.isEmpty && fracDs.isEmpty then none
        else
          match parseExponent10 rest3 with
          | none => none
          | some e => some ⟨((natOfDigits 10 (intDs ++ fracDs) : Nat) : Int), e - fracDs.length⟩
    | _ =>
        if intDs.isEmpty then none
        else
          match parseExponent10 rest with
          | none => none
          | some e => some ⟨((natOfDigits 10 intDs : Nat) : Int), e⟩

/-- StrDecimalLiteral: optional sign in front of the unsigned literal. -/
def parseSignedDec : List Char → Option JsNum
  | '+' :: rest => parseUnsignedDec rest
  | '-' :: rest => (parseUnsignedDec rest).map (fun x => ⟨-x.mantissa, x.exp10⟩)
  | l => parseUnsignedDec l

/-- JS `Number()` on a string: `none` means NaN (or ±Infinity, which fails the
`isValid` range test exactly like NaN does). -/
def jsNumber (s : String) : Option JsNum :=
  let t := ((s.toList.dropWhile jsWhitespace).reverse.dropWhile jsWhitespace).reverse
  match t with
  | [] => some ⟨0, 0⟩
  | '0' :: c :: rest =>
      if c = 'x' || c = 'X' then
        if !rest.isEmpty && rest.all isHexDigit then some ⟨((natOfDigits 16 rest : Nat) : Int), 0⟩
        else none
      else if c = 'o' || c = 'O' then
        if !rest.isEmpty && rest.all isOctDigit then some ⟨((natOfDigits 8 rest : Nat) : Int), 0⟩
        else none
      else if c = 'b' || c = 'B' then
        if !rest.isEmpty && rest.all isBinDigit then some ⟨((natOfDigits 2 rest : Nat) : Int), 0⟩
        else none
      else parseSignedDec t
  | _ => parseSignedDec t

/-- `Number(id) > 0`, decided on the exact scaled value. -/
def JsNum.gtZero (x : JsNum) : Bool := decide (0 < x.mantissa)

/-- `Number(id) < 100000000`, decided on the exact scaled value by clearing
the power of ten onto the appropriate side. -/
def JsNum.ltLimit (x : JsNum) : Bool :=
  if 0 ≤ x.exp10 then decide (x.mantissa * (10 : Int) ^ x.exp10.toNat < 100000000)
  else decide (x.mantissa < 100000000 * (10 : Int) ^ (-x.exp10).toNat)

/-- operations.js: `Number(id) > 0 && Number(id) < 100000000` (comparisons
with NaN are false, hence `none` is invalid). -/
def isValid (id : String) : Bool :=
  match jsNumber id with
  | none => false
  | some x => x.gtZero && x.ltLimit


/-! ### operations.js: `validateRecord` and `fix` -/

/-- `validateRecord(id)` (operations.js), instrumented with the list of ids
fetched from the catalog (second component) so that "fails before contacting
the catalog" is expressible.  Control flow follows the source line by line:
invalid id throws; a falsy fetched record returns `null`; the fetched record
is cloned, validated once (the validator may mutate it), and re-validated
exactly when the post-validation record is not `Record.isEqual` to the clone,
the second report becoming `revalidationResults`.  Collaborator failures
propagate unchanged. -/
def validateRecordT (env : CatalogEnv) (id : String) :
    Except OpError (Option ValidationOutcome) × List String :=
  if isValid id then
    match env.loadRecord id with
    | Except.error e => (Except.error (OpError.ext e), [id])
    | Except.ok none => (Except.ok none, [id])
    | Except.ok (some record) =>
        let originalRec := record
        match env.validate record with
        | Except.error e => (Except.error (OpError.ext e), [id])
        | Except.ok (record1, results) =>
            if record1 ≠ originalRec then
              match env.validate record1 with
              | Except.error e => (Except.error (OpError.ext e), [id])
              | Except.ok (record2, revalRes) =>
                  (Except.ok (some { originalRecord := originalRec, results := results,
                                     revalidationResults := some revalRes,
                                     validatedRecord := record2 }), [id])
            else
              (Except.ok (some { originalRecord := originalRec, results := results,
                                 revalidationResults := none,
                                 validatedRecord := record1 }), [id])
  else (Except.error (OpError.invalidId id), [])

/-- `validateRecord(id)`: the result component of `validateRecordT`. -/
def validateRecord (env : CatalogEnv) (id : String) :
    Except OpError (Option ValidationOutcome) :=
  (validateRecordT env id).1

/-- `fix(id)` (operations.js): runs `validateRecord`, destructures
`validatedRecord` from its result (a TypeError when that result is `null`,
re-rejected by the surrounding catch), submits it to `client.updateRecord`
and returns the outcome object with `updateResponse` added. -/
def fix (env : CatalogEnv) (id : String) : Except OpError FixOutcome :=
  match validateRecord env id with
  | Except.error e => Except.error e
  | Except.ok none => Except.error OpError.nullDestructure
  | Except.ok (some v) =>
      match env.updateRecord v.validatedRecord with
      | Except.error e => Except.error (OpError.ext e)
      | Except.ok resp =>
          Except.ok { validation := v, updateResponse := some resp, resultsId := none }

/-! ### cli.js: the `fixmultiple` batch walk -/

/-- The `-t` (`timeinterval`) option parsed into hours. -/
structure TimeWindow where
  startHour : Nat
  endHour : Nat
deriving DecidableEq

/-- Modelled from the spec: `isWithinTimeinterval` lives in operations.js but
is not among the shipped sources; per the spec a missing window always
permits processing, and `startHour > endHour` denotes a window that wraps
past midnight (`17-06` means 17:00 through 05:59). -/
def isWithinTimeinterval (w : Option TimeWindow) (hour : Nat) : Bool :=
  match w with
  | none => true
  | some tw =>
      if tw.startHour ≤ tw.endHour then decide (tw.startHour ≤ hour) && decide (hour < tw.endHour)
      else decide (tw.startHour ≤ hour) || decide (hour < tw.endHour)

/-- Worker for `lodashChunk`; the fuel argument starts at the list length,
which suffices since each step removes `n ≥ 1` elements. -/
def chunkGo (n : Nat) : Nat → List α → List (List α)
  | 0, _ => []
  | _ + 1, [] => []
  | fuel + 1, a :: l => (a :: l).take n :: chunkGo n fuel ((a :: l).drop n)

/-- lodash `_.chunk(array, size)`: `size` is clamped to `max size 0`; an
empty array or `size < 1` yields `[]`; otherwise successive slices of `size`
elements in order. -/
def lodashChunk (l : List α) (size : Int) : List (List α) :=
  let n : Nat := size.toNat
  if l.isEmpty || n < 1 then [] else chunkGo n l.length l

/-- The chunk-size arithmetic of `chunkGo` on lengths alone. -/
def natSizes (n : Nat) : Nat → Nat → List Nat
  | 0, _ => []
  | _ + 1, 0 => []
  | fuel + 1, m + 1 => min n (m + 1) :: natSizes n fuel (m + 1 - n)

/-- cli.js: `const chunk = argv.c || 5;` — a falsy (zero) configured chunk
size silently falls back to the default 5. -/
def cliChunkSize (c : Int) : Int := if c = 0 then 5 else c

/-- cli.js: `const idSets = _.chunk(ids, chunk);`. -/
def idSets (ids : List String) (c : Int) : List (List String) :=
  lodashChunk ids (cliChunkSize c)

/-- Observable events of the batch walk.  Chunk indices are ghost
instrumentation correlating a chunk's processing with its backup write.
`saveStart` is the *initiation* of `saveToDb` (the call), `saveComplete` the
resolution of its promise; cli.js does not await the latter, so `mainTrace`
never emits it — completions are interleaved by `validSchedule` below. -/
inductive Ev where
  | sleep (ms : Nat) (hour : Nat)
  | chunkStart (chunkIdx : Nat) (ids : List String)
  | fixOk (chunkIdx : Nat) (id : String)
  | fixFail (chunkIdx : Nat) (id : String)
  | saveStart (chunkIdx : Nat) (outcomes : List (Option FixOutcome)) (batchId : String)
  | saveComplete (chunkIdx : Nat)
  | progress (done : Int) (total : Nat) (pct : Int)
  | doneMsg
deriving DecidableEq

/-- One id inside `Promise.all(head.map(...))`: `fix` wrapped in try/catch;
on success `res.results['id'] = id` is set and a success notification logged,
on failure the error is logged and the mapper resolves with `undefined`
(modelled `none`). -/
def fixStep (env : CatalogEnv) (cidx : Nat) (id : String) : Ev × Option FixOutcome :=
  match fix env id with
  | Except.ok r => (Ev.fixOk cidx id, some { r with resultsId := some id })
  | Except.error _ => (Ev.fixFail cidx id, none)

/-- The full-chunk join: per-id notification events and the results array
(aligned with the input ids, `undefined` slots for failures) that
`Promise.all` resolves with. -/
def processChunk (env : CatalogEnv) (cidx : Nat) (ids : List String) :
    List Ev × List (Option FixOutcome) :=
  (ids.map (fun id => (fixStep env cidx id).1), ids.map (fun id => (fixStep env cidx id).2))

/-- cli.js line 282: `const done = total - head.length * tail.length;`
(`tail.length` is the number of remaining chunks, not of remaining ids). -/
def doneCount (total : Nat) (headLen tailLen : Nat) : Int :=
  (total : Int) - (headLen : Int) * (tailLen : Int)

/-- `Math.round(done / total * 100)` in exact arithmetic:
`⌊done * 100 / total + 1/2⌋` via integer floor division (ties round toward
`+∞`, as `Math.round` does).  `total = 0` is unreachable — cli.js throws on
an empty id list — and is mapped to `0` (JS would log `NaN`). -/
def progressPct (done : Int) (total : Nat) : Int :=
  if total = 0 then 0 else Int.fdiv (2 * (done * 100) + (total : Int)) (2 * (total : Int))

/-- The deterministic event trace of `fixAll(idChunks, total, batchId)`
(cli.js).  Each recursive invocation first gates on the time window (the
clock is a function of the gate-check index `k`), sleeping 20 minutes and
re-entering with the *same* worklist when outside; an exhausted worklist
logs `Done`; otherwise the head chunk is processed to a full join,
`saveToDb` is initiated — not awaited — progress is logged with the
`doneCount` formula, and the walk recurses on the tail.  The JS recursion is
unbounded (it can sleep forever); `fuel` merely bounds the observed number of
invocations, `[]` meaning the budget ran out mid-walk. -/
def mainTrace (env : CatalogEnv) (window : Option TimeWindow) (clock : Nat → Nat)
    (batchId : String) : Nat → Nat → Nat → List (List String) → Nat → List Ev
  | 0, _, _, _, _ => []
  | fuel + 1, k, cidx, idChunks, total =>
    if isWithinTimeinterval window (clock k) then
      match idChunks with
      | [] => [Ev.doneMsg]
      | head :: tail =>
          Ev.chunkStart cidx head :: (processChunk env cidx head).1
            ++ Ev.saveStart cidx (processChunk env cidx head).2 batchId
            :: Ev.progress (doneCount total head.length tail.length) total
                 (progressPct (doneCount total head.length tail.length) total)
            :: mainTrace env window clock batchId fuel (k + 1) (cidx + 1) tail total
    else
      Ev.sleep (60000 * 20) (clock k)
        :: mainTrace env window clock batchId fuel (k + 1) cidx idChunks total

def evChunkStart : Ev → Option (List String)
  | Ev.chunkStart _ ids => some ids
  | _ => none

/-- The chunks started by a trace, in order. -/
def chunkStarts (t : List Ev) : List (List String) := t.filterMap evChunkStart

def isProgressEv : Ev → Bool
  | Ev.progress _ _ _ => true
  | _ => false

/-- The progress reports of a trace, in order. -/
def progressEvents (t : List Ev) : List Ev := t.filter isProgressEv

def isSaveCompleteEv : Ev → Bool
  | Ev.saveComplete _ => true
  | _ => false

/-- Index of the first occurrence of an event in a trace (trace length when
absent). -/
def evIdx (t : List Ev) (e : Ev) : Nat := t.findIdx (fun x => decide (x = e))

/-- Ordering discipline on save completions: each `saveComplete j` must
follow the corresponding `saveStart j` and occur at most once. -/
def schedOk (started completed : List Nat) : List Ev → Bool
  | [] => true
  | Ev.saveStart j _ _ :: rest => schedOk (j :: started) completed rest
  | Ev.saveComplete j :: rest =>
      started.contains j && !completed.contains j && schedOk started (j :: completed) rest
  | _ :: rest => schedOk started completed rest

/-- A full observed trace `t` is a legal behaviour of the program for a base
walk trace `base` iff erasing the save completions gives back `base` (the
main walk never blocks on them) and the completions respect `schedOk`.
Because cli.js fires `saveToDb(results, batchId).then(...)` without awaiting
it, a completion may legally land anywhere after its initiation — including
after later chunks or never inside the observed window. -/
def validSchedule (base t : List Ev) : Bool :=
  decide (t.filter (fun e => !isSaveCompleteEv e) = base) && schedOk [] [] t

/-! ### Concrete instances used by witnesses and counterexamples -/

def rec1 : Record := ⟨[("001", "000000001")]⟩

def rec2 : Record := ⟨[("001", "000000001"), ("245", "Fixed title")]⟩

/-- Catalog always returning `rec1`, a validator with no corrections, an
accepting remote update. -/
def env0 : CatalogEnv where
  loadRecord := fun _ => Except.ok (some rec1)
  validate := fun r => Except.ok (r, [("v", [])])
  updateRecord := fun _ => Except.ok ["ok"]

/-- Validator that corrects `rec1` into `rec2` (mutates the record). -/
def envMut : CatalogEnv where
  loadRecord := fun _ => Except.ok (some rec1)
  validate := fun r =>
    if r = rec1 then Except.ok (rec2, [("v", ["fixed"])]) else Except.ok (r, [("v", [])])
  updateRecord := fun _ => Except.ok ["ok"]

/-- Catalog whose fetch fails. -/
def envErr : CatalogEnv where
  loadRecord := fun _ => Except.error "down"
  validate := fun r => Except.ok (r, [("v", [])])
  updateRecord := fun _ => Except.ok ["ok"]

/-- Remote update that rejects every record. -/
def envUpd : CatalogEnv where
  loadRecord := fun _ => Except.ok (some rec1)
  validate := fun r => Except.ok (r, [("v", [])])
  updateRecord := fun _ => Except.error "reject"

/-- Catalog that reports no such record (falsy `loadRecord` result). -/
def envNull : CatalogEnv where
  loadRecord := fun _ => Except.ok none
  validate := fun r => Except.ok (r, [("v", [])])
  updateRecord := fun _ => Except.ok ["ok"]

/-- Catalog whose fetch fails for id `"2"` only. -/
def envFail2 : CatalogEnv where
  loadRecord := fun id => if id = "2" then Except.error "boom" else Except.ok (some rec1)
  validate := fun r => Except.ok (r, [("v", [])])
  updateRecord := fun _ => Except.ok ["ok"]

def vOut1 : ValidationOutcome :=
  { originalRecord := rec1, results := [("v", [])], revalidationResults := none,
    validatedRecord := rec1 }

def fOut1 : FixOutcome :=
  { validation := vOut1, updateResponse := some ["ok"], resultsId := none }

def vOutMut : ValidationOutcome :=
  { originalRecord := rec1, results := [("v", ["fixed"])],
    revalidationResults := some [("v", [])], validatedRecord := rec2 }

def ids12 : List String :=
  ["1", "2", "3", "4", "5", "6", "7", "8", "9", "10", "11", "12"]

def clkAlways : Nat → Nat := fun _ => 0

/-- Clock reading 10:00 at the first gate check and 20:00 afterwards. -/
def clk1020 : Nat → Nat := fun k => if k = 0 then 10 else 20

def window176 : Option TimeWindow := some ⟨17, 6⟩

/-- Base walk trace for the save-ordering counterexample: two singleton
chunks, everything succeeding. -/
def c6base : List Ev := mainTrace env0 none clkAlways "b6" 3 0 0 [["1"], ["2"]] 2

/-- A legal observed trace in which both backup writes complete only after
the whole walk: possible because cli.js never awaits `saveToDb`. -/
def c6bad : List Ev := c6base ++ [Ev.saveComplete 0, Ev.saveComplete 1]


/-! ### Helper lemmas -/

theorem JsNum.gtZero_iff (x : JsNum) : x.gtZero = true ↔ 0 < x.toRat := by
  unfold JsNum.gtZero JsNum.toRat
  rw [decide_eq_true_iff]
  have h10 : (0 : ℚ) < (10 : ℚ) ^ x.exp10 := zpow_pos (by norm_num) _
  constructor
  · intro h
    exact mul_pos (by exact_mod_cast h) h10
  · intro h
    by_contra hc
    push_neg at hc
    have hm : (x.mantissa : ℚ) ≤ 0 := by exact_mod_cast hc
    nlinarith

theorem JsNum.ltLimit_iff (x : JsNum) : x.ltLimit = true ↔ x.toRat < 100000000 := by
  unfold JsNum.ltLimit JsNum.toRat
  by_cases he : 0 ≤ x.exp10
  · rw [if_pos he, decide_eq_true_iff]
    have h1 : ((x.exp10.toNat : ℤ)) = x.exp10 := by omega
    rw [← h1, zpow_natCast]
    constructor <;> intro h <;> exact_mod_cast h
  · rw [if_neg he, decide_eq_true_iff]
    have hk : (((-x.exp10).toNat : ℤ)) = -x.exp10 := by omega
    have h2 : (10 : ℚ) ^ x.exp10 = ((10 : ℚ) ^ (-x.exp10).toNat)⁻¹ := by
      rw [← zpow_natCast (10 : ℚ) (-x.exp10).toNat, hk, ← zpow_neg, neg_neg]
    rw [h2, ← div_eq_mul_inv, div_lt_iff₀ (by positivity)]
    constructor <;> intro h <;> exact_mod_cast h

theorem isValid_iff_between (id : String) :
    isValid id = true ↔
      ∃ x, jsNumber id = some x ∧ 0 < x.toRat ∧ x.toRat < 100000000 := by
  unfold isValid
  cases hj : jsNumber id with
  | none => simp
  | some x =>
      simp only [Bool.and_eq_true, JsNum.gtZero_iff, JsNum.ltLimit_iff]
      constructor
      · rintro ⟨h1, h2⟩
        exact ⟨x, rfl, h1, h2⟩
      · rintro ⟨y, hy, h1, h2⟩
        cases hy
        exact ⟨h1, h2⟩

/-! ### Claims about operations.js -/

/-- C1: for every id whose fetched record is mutated by the validator (the
post-validation record is not equal to the pre-validation clone under the
record equality), `validateRecord` invokes the validator a second time and
returns that second report as `revalidationResults`; for every id whose
record is unchanged by validation, the returned `revalidationResults` is the
empty sentinel. -/
theorem C1_validateRecord_revalidation (env : CatalogEnv) (id : String)
    (out : ValidationOutcome) (h : validateRecord env id = Except.ok (some out)) :
    ∃ r0 r1 res1, env.loadRecord id = Except.ok (some r0)
      ∧ env.validate r0 = Except.ok (r1, res1)
      ∧ out.originalRecord = r0 ∧ out.results = res1
      ∧ ((r1 = r0 ∧ out.revalidationResults = none ∧ out.validatedRecord = r1)
         ∨ (r1 ≠ r0 ∧ ∃ r2 res2, env.validate r1 = Except.ok (r2, res2)
              ∧ out.revalidationResults = some res2 ∧ out.validatedRecord = r2)) := by
  unfold validateRecord validateRecordT at h
  by_cases hv : isValid id
  · rw [if_pos hv] at h
    cases hL : env.loadRecord id with
    | error e => rw [hL] at h; simp at h
    | ok o =>
      rw [hL] at h
      cases o with
      | none => simp at h
      | some r0 =>
        dsimp only at h
        cases hV : env.validate r0 with
        | error e => rw [hV] at h; simp at h
        | ok p =>
          obtain ⟨r1, res1⟩ := p
          rw [hV] at h
          dsimp only at h
          by_cases hEq : r1 ≠ r0
          · rw [if_pos hEq] at h
            cases hV2 : env.validate r1 with
            | error e => rw [hV2] at h; simp at h
            | ok p2 =>
              obtain ⟨r2, res2⟩ := p2
              rw [hV2] at h
              dsimp only at h
              injection h with h
              injection h with h
              subst h
              exact ⟨r0, r1, res1, rfl, hV, rfl, rfl,
                Or.inr ⟨hEq, r2, res2, hV2, rfl, rfl⟩⟩
          · rw [if_neg hEq] at h
            push_neg at hEq
            dsimp only at h
            injection h with h
            injection h with h
            subst h
            exact ⟨r0, r1, res1, rfl, hV, rfl, rfl, Or.inl ⟨hEq, rfl, rfl⟩⟩
  · rw [if_neg hv] at h; simp at h

/-- Witness for C1: a validator that corrects `rec1` into `rec2`, so the
second validation's report is returned as `revalidationResults`. -/
theorem C1_witness :
    ∃ r0 r1 res1, envMut.loadRecord "1" = Except.ok (some r0)
      ∧ envMut.validate r0 = Except.ok (r1, res1)
      ∧ vOutMut.originalRecord = r0 ∧ vOutMut.results = res1
      ∧ ((r1 = r0 ∧ vOutMut.revalidationResults = none ∧ vOutMut.validatedRecord = r1)
         ∨ (r1 ≠ r0 ∧ ∃ r2 res2, envMut.validate r1 = Except.ok (r2, res2)
              ∧ vOutMut.revalidationResults = some res2 ∧ vOutMut.validatedRecord = r2)) :=
  C1_validateRecord_revalidation envMut "1" vOutMut (by decide)

/-- C2: `isValid` accepts exactly the strings whose JS numeric value is
strictly between 0 and 100,000,000; for every other string `validateRecord`
throws `Invalid record id` with an empty catalog-fetch trace (it fails before
contacting the catalog), and for a valid id it can never produce that
error. -/
theorem C2_isValid_invalidId (id : String) :
    (isValid id = true ↔
        ∃ x, jsNumber id = some x ∧ 0 < x.toRat ∧ x.toRat < 100000000)
    ∧ (isValid id = false →
        ∀ env : CatalogEnv,
          validateRecordT env id = (Except.error (OpError.invalidId id), []))
    ∧ (isValid id = true →
        ∀ (env : CatalogEnv) (s : String),
          validateRecord env id ≠ Except.error (OpError.invalidId s)) := by
  refine ⟨isValid_iff_between id, ?_, ?_⟩
  · intro hfalse env
    unfold validateRecordT
    rw [if_neg (by simp [hfalse])]
  · intro htrue env s
    unfold validateRecord validateRecordT
    rw [if_pos htrue]
    cases hL : env.loadRecord id with
    | error e => simp
    | ok o =>
      cases o with
      | none => simp
      | some r0 =>
        dsimp only
        cases hV : env.validate r0 with
        | error e => simp
        | ok p =>
          obtain ⟨r1, res1⟩ := p
          dsimp only
          by_cases hEq : r1 ≠ r0
          · rw [if_pos hEq]
            cases hV2 : env.validate r1 with
            | error e => simp
            | ok p2 => obtain ⟨r2, res2⟩ := p2; simp
          · rw [if_neg hEq]; simp

/-- Witness for C2: `"123"` is accepted, `"MOIKKA!"` is rejected with
`InvalidId` and an empty fetch trace. -/
theorem C2_witness :
    isValid "123" = true
    ∧ validateRecordT env0 "MOIKKA!" = (Except.error (OpError.invalidId "MOIKKA!"), [])
    ∧ validateRecord env0 "123" ≠ Except.error (OpError.invalidId "123") :=
  ⟨(C2_isValid_invalidId "123").1.mpr
      ⟨⟨123, 0⟩, by decide, by norm_num [JsNum.toRat], by norm_num [JsNum.toRat]⟩,
   (C2_isValid_invalidId "MOIKKA!").2.1 (by decide) env0,
   (C2_isValid_invalidId "123").2.2 (by decide) env0 "123"⟩

/-- C3: whenever `fix` succeeds, the returned outcome carries a defined
`updateResponse` coming from a successful remote update of the validated
record; `validateRecord` errors propagate unchanged and a rejected remote
update makes `fix` fail — no partial outcome is returned on failure. -/
theorem C3_fix_updateResponse (env : CatalogEnv) (id : String) :
    (∀ r, fix env id = Except.ok r →
        r.updateResponse.isSome = true
        ∧ ∃ v resp, validateRecord env id = Except.ok (some v)
            ∧ env.updateRecord v.validatedRecord = Except.ok resp
            ∧ r = { validation := v, updateResponse := some resp, resultsId := none })
    ∧ (∀ e, validateRecord env id = Except.error e → fix env id = Except.error e)
    ∧ (∀ v msg, validateRecord env id = Except.ok (some v) →
        env.updateRecord v.validatedRecord = Except.error msg →
        fix env id = Except.error (OpError.ext msg)) := by
  refine ⟨?_, ?_, ?_⟩
  · intro r h
    unfold fix at h
    cases hV : validateRecord env id with
    | error e => rw [hV] at h; simp at h
    | ok o =>
      rw [hV] at h
      cases o with
      | none => simp at h
      | some v =>
        dsimp only at h
        cases hU : env.updateRecord v.validatedRecord with
        | error e => rw [hU] at h; simp at h
        | ok resp =>
          rw [hU] at h
          dsimp only at h
          injection h with h
          subst h
          exact ⟨rfl, v, resp, rfl, hU, rfl⟩
  · intro e hV
    unfold fix
    rw [hV]
  · intro v msg hV hU
    unfold fix
    rw [hV]
    dsimp only
    rw [hU]

/-- Witness for C3: a successful fix carries `updateResponse`; a failing
fetch and a rejecting remote update each make `fix` fail. -/
theorem C3_witness :
    (fOut1.updateResponse.isSome = true
     ∧ ∃ v resp, validateRecord env0 "1" = Except.ok (some v)
         ∧ env0.updateRecord v.validatedRecord = Except.ok resp
         ∧ fOut1 = { validation := v, updateResponse := some resp, resultsId := none })
    ∧ fix envErr "1" = Except.error (OpError.ext "down")
    ∧ fix envUpd "1" = Except.error (OpError.ext "reject") :=
  ⟨(C3_fix_updateResponse env0 "1").1 fOut1 (by decide),
   (C3_fix_updateResponse envErr "1").2.1 (OpError.ext "down") (by decide),
   (C3_fix_updateResponse envUpd "1").2.2 vOut1 "reject" (by decide) (by decide)⟩

/-- C10: for a valid id that the catalog does not have, `validateRecord`
returns `null`, and `fix` — which unconditionally destructures
`validatedRecord` from that result — rejects with the resulting TypeError
instead of returning `null` or an outcome. -/
theorem C10_fix_null_rejects (env : CatalogEnv) (id : String)
    (hvalid : isValid id = true) (hnull : env.loadRecord id = Except.ok none) :
    validateRecord env id = Except.ok none
    ∧ fix env id = Except.error OpError.nullDestructure := by
  have h1 : validateRecord env id = Except.ok none := by
    unfold validateRecord validateRecordT
    rw [if_pos hvalid, hnull]
  refine ⟨h1, ?_⟩
  unfold fix
  rw [h1]

/-- Witness for C10: the empty-catalog environment at id `"1"`. -/
theorem C10_witness :
    validateRecord envNull "1" = Except.ok none
    ∧ fix envNull "1" = Except.error OpError.nullDestructure :=
  C10_fix_null_rejects envNull "1" (by decide) (by decide)

/-! ### Helper lemmas about the batch walk -/

theorem chunkStarts_append (a b : List Ev) :
    chunkStarts (a ++ b) = chunkStarts a ++ chunkStarts b := by
  simp [chunkStarts]

theorem chunkStarts_cons_chunkStart (i : Nat) (c : List String) (t : List Ev) :
    chunkStarts (Ev.chunkStart i c :: t) = c :: chunkStarts t := by
  simp [chunkStarts, List.filterMap_cons, evChunkStart]

theorem chunkStarts_cons_of_none (e : Ev) (he : evChunkStart e = none) (t : List Ev) :
    chunkStarts (e :: t) = chunkStarts t := by
  simp [chunkStarts, List.filterMap_cons, he]

theorem chunkStarts_cons_saveStart (i : Nat) (out : List (Option FixOutcome))
    (b : String) (t : List Ev) :
    chunkStarts (Ev.saveStart i out b :: t) = chunkStarts t :=
  chunkStarts_cons_of_none (Ev.saveStart i out b) rfl t

theorem chunkStarts_cons_progress (d : Int) (tot : Nat) (p : Int) (t : List Ev) :
    chunkStarts (Ev.progress d tot p :: t) = chunkStarts t :=
  chunkStarts_cons_of_none (Ev.progress d tot p) rfl t

theorem fixStep_ok (env : CatalogEnv) (cidx : Nat) (id : String) (r : FixOutcome)
    (h : fix env id = Except.ok r) :
    fixStep env cidx id = (Ev.fixOk cidx id, some { r with resultsId := some id }) := by
  simp [fixStep, h]

theorem fixStep_error (env : CatalogEnv) (cidx : Nat) (id : String) (e : OpError)
    (h : fix env id = Except.error e) :
    fixStep env cidx id = (Ev.fixFail cidx id, none) := by
  simp [fixStep, h]

theorem chunkStarts_processChunk (env : CatalogEnv) (cidx : Nat) (ids : List String) :
    chunkStarts (processChunk env cidx ids).1 = [] := by
  induction ids with
  | nil => rfl
  | cons id rest ih =>
    simp only [processChunk, List.map_cons] at ih ⊢
    cases h : fix env id with
    | ok r =>
      rw [fixStep_ok env cidx id r h]
      simpa [chunkStarts, evChunkStart] using ih
    | error e =>
      rw [fixStep_error env cidx id e h]
      simpa [chunkStarts, evChunkStart] using ih

theorem saveComplete_not_processChunk (env : CatalogEnv) (cidx : Nat)
    (ids : List String) (j : Nat) :
    Ev.saveComplete j ∉ (processChunk env cidx ids).1 := by
  induction ids with
  | nil => simp [processChunk]
  | cons id rest ih =>
    simp only [processChunk, List.map_cons] at ih ⊢
    cases h : fix env id with
    | ok r =>
      rw [fixStep_ok env cidx id r h]
      simp only [List.mem_cons, not_or]
      exact ⟨by simp, ih⟩
    | error e =>
      rw [fixStep_error env cidx id e h]
      simp only [List.mem_cons, not_or]
      exact ⟨by simp, ih⟩

/-- Unfolding step of `fixAll` on a non-empty worklist inside the time
window: process the head chunk to a full join, initiate the backup write,
log progress, recurse on the tail. -/
theorem mainTrace_cons (env : CatalogEnv) (window : Option TimeWindow)
    (clock : Nat → Nat) (batchId : String) (fuel k cidx : Nat)
    (c : List String) (rest : List (List String)) (total : Nat)
    (hin : isWithinTimeinterval window (clock k) = true) :
    mainTrace env window clock batchId (fuel + 1) k cidx (c :: rest) total =
      Ev.chunkStart cidx c :: (processChunk env cidx c).1
        ++ Ev.saveStart cidx (processChunk env cidx c).2 batchId
        :: Ev.progress (doneCount total c.length rest.length) total
             (progressPct (doneCount total c.length rest.length) total)
        :: mainTrace env window clock batchId fuel (k + 1) (cidx + 1) rest total := by
  simp [mainTrace, hin]

/-- Unfolding step of `fixAll` outside the time window: sleep 20 minutes and
re-enter with the same worklist. -/
theorem mainTrace_sleep (env : CatalogEnv) (window : Option TimeWindow)
    (clock : Nat → Nat) (batchId : String) (fuel k cidx : Nat)
    (chunks : List (List String)) (total : Nat)
    (hout : isWithinTimeinterval window (clock k) = false) :
    mainTrace env window clock batchId (fuel + 1) k cidx chunks total =
      Ev.sleep (60000 * 20) (clock k)
        :: mainTrace env window clock batchId fuel (k + 1) cidx chunks total := by
  simp [mainTrace, hout]

theorem chunkStarts_mainTrace (env : CatalogEnv) (window : Option TimeWindow)
    (clock : Nat → Nat) (batchId : String)
    (hin : ∀ j, isWithinTimeinterval window (clock j) = true) :
    ∀ (chunks : List (List String)) (fuel k cidx total : Nat), chunks.length < fuel →
      chunkStarts (mainTrace env window clock batchId fuel k cidx chunks total) = chunks := by
  intro chunks
  induction chunks with
  | nil =>
    intro fuel k cidx total hf
    cases fuel with
    | zero => omega
    | succ f => simp [mainTrace, hin k, chunkStarts, evChunkStart]
  | cons c rest ih =>
    intro fuel k cidx total hf
    cases fuel with
    | zero => omega
    | succ f =>
      rw [mainTrace_cons env window clock batchId f k cidx c rest total (hin k)]
      have hlen : rest.length < f := by
        simp only [List.length_cons] at hf
        omega
      rw [chunkStarts_append, chunkStarts_cons_chunkStart, chunkStarts_processChunk,
        chunkStarts_cons_saveStart, chunkStarts_cons_progress,
        ih f (k + 1) (cidx + 1) total hlen]
      rfl

theorem chunkStarts_mainTrace_empty (env : CatalogEnv) (window : Option TimeWindow)
    (clock : Nat → Nat) (batchId : String) :
    ∀ (fuel k cidx total : Nat),
      chunkStarts (mainTrace env window clock batchId fuel k cidx [] total) = [] := by
  intro fuel
  induction fuel with
  | zero => intro k cidx total; rfl
  | succ f ih =>
    intro k cidx total
    by_cases hin : isWithinTimeinterval window (clock k) = true
    · simp [mainTrace, hin, chunkStarts, evChunkStart]
    · rw [Bool.not_eq_true] at hin
      rw [mainTrace_sleep env window clock batchId f k cidx [] total hin]
      simpa [chunkStarts, evChunkStart] using ih (k + 1) cidx total

/-- The main walk never awaits a backup write: no `saveComplete` event is
ever emitted by `mainTrace` itself. -/
theorem saveComplete_not_mem_mainTrace (env : CatalogEnv) (window : Option TimeWindow)
    (clock : Nat → Nat) (batchId : String) :
    ∀ (fuel k cidx : Nat) (chunks : List (List String)) (total j : Nat),
      Ev.saveComplete j ∉ mainTrace env window clock batchId fuel k cidx chunks total := by
  intro fuel
  induction fuel with
  | zero => intro k cidx chunks total j; simp [mainTrace]
  | succ f ih =>
    intro k cidx chunks total j
    by_cases hin : isWithinTimeinterval window (clock k) = true
    · cases chunks with
      | nil => simp [mainTrace, hin]
      | cons c rest =>
        rw [mainTrace_cons env window clock batchId f k cidx c rest total hin]
        intro hmem
        rcases List.mem_append.mp hmem with h1 | h1
        · rcases List.mem_cons.mp h1 with h2 | h2
          · simp at h2
          · exact saveComplete_not_processChunk env cidx c j h2
        · rcases List.mem_cons.mp h1 with h2 | h2
          · simp at h2
          rcases List.mem_cons.mp h2 with h3 | h3
          · simp at h3
          · exact ih (k + 1) (cidx + 1) rest total j h3
    · rw [Bool.not_eq_true] at hin
      rw [mainTrace_sleep env window clock batchId f k cidx chunks total hin]
      intro hmem
      rcases List.mem_cons.mp hmem with h1 | h1
      · simp at h1
      · exact ih (k + 1) cidx chunks total j h1

theorem chunkGo_flatten (n : Nat) (hn : 0 < n) :
    ∀ (fuel : Nat) (l : List α), l.length ≤ fuel → (chunkGo n fuel l).flatten = l := by
  intro fuel
  induction fuel with
  | zero =>
    intro l hl
    rw [List.eq_nil_of_length_eq_zero (Nat.le_zero.mp hl)]
    rfl
  | succ f ih =>
    intro l hl
    cases l with
    | nil => rfl
    | cons a as =>
      simp only [chunkGo, List.flatten_cons]
      rw [ih (List.drop n (a :: as))
          (by simp only [List.length_drop, List.length_cons] at hl ⊢; omega)]
      exact List.take_append_drop n (a :: as)

theorem chunkGo_sizes (n : Nat) :
    ∀ (fuel : Nat) (l : List α),
      (chunkGo n fuel l).map List.length = natSizes n fuel l.length := by
  intro fuel
  induction fuel with
  | zero => intro l; rfl
  | succ f ih =>
    intro l
    cases l with
    | nil => rfl
    | cons a as =>
      simp only [chunkGo, List.map_cons, List.length_take, List.length_cons, natSizes]
      rw [ih]
      simp [List.length_drop]

theorem lodashChunk_pos (l : List String) (hne : l.isEmpty = false) :
    lodashChunk l 5 = chunkGo 5 l.length l := by
  show (if l.isEmpty || (5 : Int).toNat < 1 then [] else chunkGo (5 : Int).toNat l.length l) =
    chunkGo 5 l.length l
  rw [hne]
  norm_num
  rfl

theorem lodashChunk_twelve_sizes (ids : List String) (h : ids.length = 12) :
    (lodashChunk ids 5).map List.length = [5, 5, 2] := by
  have hne : ids.isEmpty = false := by
    cases ids with
    | nil => simp at h
    | cons a as => rfl
  rw [lodashChunk_pos ids hne, chunkGo_sizes, h]
  rfl

theorem lodashChunk_twelve_flatten (ids : List String) (h : ids.length = 12) :
    (lodashChunk ids 5).flatten = ids := by
  have hne : ids.isEmpty = false := by
    cases ids with
    | nil => simp at h
    | cons a as => rfl
  rw [lodashChunk_pos ids hne]
  exact chunkGo_flatten 5 (by norm_num) ids.length ids le_rfl

/-! ### Claims about the batch walk -/

/-- C4: a failing `fix` on one id of a chunk never aborts its siblings or the
remaining chunks — the failed id becomes a `fixFail` notification and an
`undefined` slot in the results array, the sibling ids' events and result
slots are exactly what they would be anyway, the chunk completes into its
backup write and progress report, the walk recurses on the tail, and every
chunk of the worklist is still started. -/
theorem C4_failure_isolation (env : CatalogEnv) (window : Option TimeWindow)
    (clock : Nat → Nat) (batchId : String) (fuel k cidx : Nat)
    (pre : List String) (x : String) (post : List String)
    (rest : List (List String)) (total : Nat) (e : OpError)
    (hin : ∀ j, isWithinTimeinterval window (clock j) = true)
    (he : fix env x = Except.error e)
    (hfuel : rest.length < fuel) :
    (processChunk env cidx (pre ++ x :: post)).1 =
        (processChunk env cidx pre).1 ++ Ev.fixFail cidx x :: (processChunk env cidx post).1
    ∧ (processChunk env cidx (pre ++ x :: post)).2 =
        (processChunk env cidx pre).2 ++ none :: (processChunk env cidx post).2
    ∧ mainTrace env window clock batchId (fuel + 1) k cidx ((pre ++ x :: post) :: rest) total =
        Ev.chunkStart cidx (pre ++ x :: post) :: (processChunk env cidx (pre ++ x :: post)).1
          ++ Ev.saveStart cidx (processChunk env cidx (pre ++ x :: post)).2 batchId
          :: Ev.progress (doneCount total (pre ++ x :: post).length rest.length) total
               (progressPct (doneCount total (pre ++ x :: post).length rest.length) total)
          :: mainTrace env window clock batchId fuel (k + 1) (cidx + 1) rest total
    ∧ chunkStarts
          (mainTrace env window clock batchId (fuel + 1) k cidx ((pre ++ x :: post) :: rest) total) =
        (pre ++ x :: post) :: rest := by
  refine ⟨?_, ?_, ?_, ?_⟩
  · simp only [processChunk, List.map_append, List.map_cons]
    rw [fixStep_error env cidx x e he]
  · simp only [processChunk, List.map_append, List.map_cons]
    rw [fixStep_error env cidx x e he]
  · exact mainTrace_cons env window clock batchId fuel k cidx (pre ++ x :: post) rest total (hin k)
  · exact chunkStarts_mainTrace env window clock batchId hin ((pre ++ x :: post) :: rest)
      (fuel + 1) k cidx total (by simp only [List.length_cons]; omega)

/-- Witness for C4: `"2"` fails inside the chunk `["1", "2", "3"]`, the
sibling ids and the tail chunk `["4"]` are still processed. -/
theorem C4_witness :
    (processChunk envFail2 0 (["1"] ++ "2" :: ["3"])).1 =
        (processChunk envFail2 0 ["1"]).1 ++ Ev.fixFail 0 "2" :: (processChunk envFail2 0 ["3"]).1
    ∧ (processChunk envFail2 0 (["1"] ++ "2" :: ["3"])).2 =
        (processChunk envFail2 0 ["1"]).2 ++ none :: (processChunk envFail2 0 ["3"]).2
    ∧ chunkStarts
          (mainTrace envFail2 none clkAlways "b4" 3 0 0 ((["1"] ++ "2" :: ["3"]) :: [["4"]]) 4) =
        (["1"] ++ "2" :: ["3"]) :: [["4"]] := by
  have h := C4_failure_isolation envFail2 none clkAlways "b4" 2 0 0 ["1"] "2" ["3"] [["4"]] 4
    (OpError.ext "boom") (fun j => rfl) (by decide) (by decide)
  exact ⟨h.1, h.2.1, h.2.2.2⟩

/-- C5: invoked at a time outside the configured window, the walk emits only
a 20-minute sleep and re-enters the gate with exactly the same worklist; once
the clock is inside the window the very next event is the start of the
original head chunk, so no chunk is lost or skipped by a suspension. -/
theorem C5_gate_suspension (env : CatalogEnv) (window : Option TimeWindow)
    (clock : Nat → Nat) (batchId : String) (fuel k cidx : Nat)
    (c : List String) (rest : List (List String)) (total : Nat)
    (hout : isWithinTimeinterval window (clock k) = false)
    (hin : isWithinTimeinterval window (clock (k + 1)) = true) :
    mainTrace env window clock batchId (fuel + 2) k cidx (c :: rest) total =
      Ev.sleep (60000 * 20) (clock k)
        :: mainTrace env window clock batchId (fuel + 1) (k + 1) cidx (c :: rest) total
    ∧ ∃ t, mainTrace env window clock batchId (fuel + 2) k cidx (c :: rest) total =
        Ev.sleep (60000 * 20) (clock k) :: Ev.chunkStart cidx c :: t := by
  have h1 := mainTrace_sleep env window clock batchId (fuel + 1) k cidx (c :: rest) total hout
  refine ⟨h1, ?_⟩
  rw [h1, mainTrace_cons env window clock batchId fuel (k + 1) cidx c rest total hin]
  exact ⟨_, rfl⟩

/-- Witness for C5: window `17-06`, first gate check at 10:00 (outside),
second at 20:00 (inside). -/
theorem C5_witness :
    mainTrace env0 window176 clk1020 "b5" 2 0 0 [["1"]] 1 =
      Ev.sleep (60000 * 20) (clk1020 0)
        :: mainTrace env0 window176 clk1020 "b5" 1 1 0 [["1"]] 1
    ∧ ∃ t, mainTrace env0 window176 clk1020 "b5" 2 0 0 [["1"]] 1 =
        Ev.sleep (60000 * 20) (clk1020 0) :: Ev.chunkStart 0 ["1"] :: t :=
  C5_gate_suspension env0 window176 clk1020 "b5" 0 0 0 ["1"] [] 1 (by decide) (by decide)

/-- C6 (amended): chunk N+1 never begins before chunk N's per-record fixes
have all resolved and its backup write has been *initiated*; but the backup
write is not awaited — `mainTrace` itself never emits a completion, which is
placed by the scheduler — so its completion is unordered with respect to
later chunks. -/
theorem C6_amended_ordering (env : CatalogEnv) (window : Option TimeWindow)
    (clock : Nat → Nat) (batchId : String) (fuel k cidx : Nat)
    (c : List String) (rest : List (List String)) (total : Nat)
    (hin : isWithinTimeinterval window (clock k) = true) :
    mainTrace env window clock batchId (fuel + 1) k cidx (c :: rest) total =
      Ev.chunkStart cidx c :: (processChunk env cidx c).1
        ++ Ev.saveStart cidx (processChunk env cidx c).2 batchId
        :: Ev.progress (doneCount total c.length rest.length) total
             (progressPct (doneCount total c.length rest.length) total)
        :: mainTrace env window clock batchId fuel (k + 1) (cidx + 1) rest total
    ∧ Ev.saveComplete cidx ∉
        mainTrace env window clock batchId (fuel + 1) k cidx (c :: rest) total :=
  ⟨mainTrace_cons env window clock batchId fuel k cidx c rest total hin,
   saveComplete_not_mem_mainTrace env window clock batchId (fuel + 1) k cidx (c :: rest)
     total cidx⟩

/-- Witness for C6's amended ordering statement, at a concrete two-chunk
walk. -/
theorem C6_witness :
    mainTrace env0 none clkAlways "b6" 3 0 0 [["1"], ["2"]] 2 =
      Ev.chunkStart 0 ["1"] :: (processChunk env0 0 ["1"]).1
        ++ Ev.saveStart 0 (processChunk env0 0 ["1"]).2 "b6"
        :: Ev.progress (doneCount 2 (["1"]).length ([["2"]]).length) 2
             (progressPct (doneCount 2 (["1"]).length ([["2"]]).length) 2)
        :: mainTrace env0 none clkAlways "b6" 2 1 1 [["2"]] 2
    ∧ Ev.saveComplete 0 ∉ mainTrace env0 none clkAlways "b6" 3 0 0 [["1"], ["2"]] 2 :=
  C6_amended_ordering env0 none clkAlways "b6" 2 0 0 ["1"] [["2"]] 2 rfl

/-- C6 (counterexample to the claim as stated): `c6bad` is a legal observed
trace of the two-chunk walk — the erasure of its save completions is the walk
trace `c6base` and every completion follows its initiation — yet chunk 1
starts strictly before chunk 0's backup write completes, because cli.js fires
`saveToDb(...).then(...)` without awaiting it before recursing. -/
theorem C6_counterexample :
    validSchedule c6base c6bad = true
    ∧ Ev.chunkStart 1 ["2"] ∈ c6bad ∧ Ev.saveComplete 0 ∈ c6bad
    ∧ evIdx c6bad (Ev.chunkStart 1 ["2"]) < evIdx c6bad (Ev.saveComplete 0) := by decide

/-- C7 (code-bug evidence): with 12 ids in chunks of 5 and every fix
succeeding, the three progress reports of the walk are 2/12 (17 %),
7/12 (58 %) and 12/12 (100 %): after the first chunk the log claims "2/12
records processed" even though 5 of 12 ids were processed, because cli.js
line 282 computes `total - head.length * tail.length` (chunk size times the
number of *remaining chunks*) instead of the number of ids processed so
far. -/
theorem C7_progress_bug :
    progressEvents (mainTrace env0 none clkAlways "b7" 4 0 0 (lodashChunk ids12 5) 12) =
      [Ev.progress 2 12 17, Ev.progress 7 12 58, Ev.progress 12 12 100]
    ∧ (lodashChunk ids12 5).map List.length = [5, 5, 2] := by decide

/-- C8: twelve ids with chunk size 5 are partitioned into chunks of sizes
`[5, 5, 2]` whose concatenation is the original id list, and the walk starts
exactly those chunks in that order. -/
theorem C8_chunking (ids : List String) (h : ids.length = 12)
    (env : CatalogEnv) (window : Option TimeWindow) (clock : Nat → Nat)
    (batchId : String) (fuel k cidx : Nat)
    (hin : ∀ j, isWithinTimeinterval window (clock j) = true)
    (hfuel : 3 < fuel) :
    (lodashChunk ids 5).map List.length = [5, 5, 2]
    ∧ (lodashChunk ids 5).flatten = ids
    ∧ chunkStarts (mainTrace env window clock batchId fuel k cidx (lodashChunk ids 5) 12) =
        lodashChunk ids 5 := by
  have hmap := lodashChunk_twelve_sizes ids h
  have hlen : (lodashChunk ids 5).length = 3 := by
    have := congrArg List.length hmap
    simpa using this
  exact ⟨hmap, lodashChunk_twelve_flatten ids h,
    chunkStarts_mainTrace env window clock batchId hin (lodashChunk ids 5) fuel k cidx 12
      (by omega)⟩

/-- Witness for C8: the concrete twelve-id list. -/
theorem C8_witness :
    (lodashChunk ids12 5).map List.length = [5, 5, 2]
    ∧ (lodashChunk ids12 5).flatten = ids12
    ∧ chunkStarts (mainTrace env0 none clkAlways "b8" 4 0 0 (lodashChunk ids12 5) 12) =
        lodashChunk ids12 5 :=
  C8_chunking ids12 (by decide) env0 none clkAlways "b8" 4 0 0 (fun j => rfl) (by decide)

/-- C9 (amended): a chunk size of 0 is falsy, so `argv.c || 5` silently
replaces it with the default 5 and processing proceeds in chunks of five; a
negative chunk size makes `_.chunk` return `[]`, so the walk starts no chunk
and terminates immediately; in neither case is the input rejected with an
error. -/
theorem C9_amended (ids : List String) (c : Int) :
    (c = 0 → idSets ids c = lodashChunk ids 5)
    ∧ (c < 0 → idSets ids c = []
        ∧ ∀ (env : CatalogEnv) (window : Option TimeWindow) (clock : Nat → Nat)
            (batchId : String) (fuel k cidx total : Nat),
            chunkStarts (mainTrace env window clock batchId fuel k cidx (idSets ids c) total) =
              []) := by
  constructor
  · intro h0
    subst h0
    rfl
  · intro hneg
    have hempty : idSets ids c = [] := by
      unfold idSets cliChunkSize
      rw [if_neg (by omega : ¬c = 0)]
      show (if ids.isEmpty || c.toNat < 1 then [] else chunkGo c.toNat ids.length ids) = []
      have hc : c.toNat = 0 := by omega
      rw [hc]
      simp
    refine ⟨hempty, ?_⟩
    intro env window clock batchId fuel k cidx total
    rw [hempty]
    exact chunkStarts_mainTrace_empty env window clock batchId fuel k cidx total

/-- Witness for C9's amended statement at chunk size `-3`. -/
theorem C9_witness :
    idSets ids12 (-3) = []
    ∧ chunkStarts (mainTrace env0 none clkAlways "b9" 1 0 0 (idSets ids12 (-3)) 12) = [] := by
  have h := (C9_amended ids12 (-3)).2 (by norm_num)
  exact ⟨h.1, h.2 env0 none clkAlways "b9" 1 0 0 12⟩

/-- C9 (counterexample to the claim as stated): with configured chunk size 0
the batch processor does not reject the input — the id list is chunked by the
default size 5 and the walk starts all three chunks. -/
theorem C9_counterexample :
    idSets ids12 0 = lodashChunk ids12 5
    ∧ (idSets ids12 0).map List.length = [5, 5, 2]
    ∧ chunkStarts (mainTrace env0 none clkAlways "b9c" 4 0 0 (idSets ids12 0) 12) =
        idSets ids12 0 := by decide

end MelindaBatch
